import Mathlib

/-!
Verification of the switch_audio command-line tool (main.c and the older
variant of the same file). The platform audio subsystem (CoreAudio) is
modelled as an oracle record; every operation of the tool is translated
from the C source into an executable Lean function over that oracle.

Conventions of the embedding:
  - AudioDeviceID is a Nat; the value 0 is kAudioObjectUnknown, the
    unknown sentinel.
  - Device names are byte lists (UTF-8 bytes, no NUL terminator); a
    failed name lookup is the value none.
  - The stream-configuration query of deviceSupportsOutput can fail at
    the size probe, the allocation, or the data fetch, or return the
    list of channel counts of the output buffers.
  - The device-list query of getAudioDeviceList can fail the same way;
    a success carries the platform-ordered list of device identifiers.
-/

/-- Result of the stream-configuration query made by deviceSupportsOutput
(main.c lines 83-105): three failure modes, or the channel count of each
buffer of the output AudioBufferList. -/
inductive StreamConfigQuery : Type
  | sizeProbeFail : StreamConfigQuery
  | allocFail : StreamConfigQuery
  | dataFetchFail : StreamConfigQuery
  | ok : List Nat → StreamConfigQuery
deriving DecidableEq, Repr

/-- Loop of main.c lines 107-113: hasOutput starts as the given Bool and
is forced to false (with break) at the first buffer whose channel count
is zero. -/
def hasOutputLoop : List Nat → Bool → Bool
  | [], h => h
  | b :: rest, h => if b = 0 then false else hasOutputLoop rest h

/-- deviceSupportsOutput (main.c lines 83-117): false on any query
failure; otherwise start from mNumberBuffers > 0 and run the
zero-channel loop. -/
def deviceSupportsOutput : StreamConfigQuery → Bool
  | StreamConfigQuery.sizeProbeFail => false
  | StreamConfigQuery.allocFail => false
  | StreamConfigQuery.dataFetchFail => false
  | StreamConfigQuery.ok bufs => hasOutputLoop bufs (decide (0 < bufs.length))

/-- Result of getAudioDeviceList (main.c lines 12-37): size probe error,
malloc failure, data fetch error, or the device identifier list. -/
inductive RegistryResult : Type
  | sizeProbeFail : RegistryResult
  | allocFail : RegistryResult
  | fetchFail : RegistryResult
  | ok : List Nat → RegistryResult
deriving DecidableEq, Repr

/-- Oracle for the platform audio subsystem: everything the tool reads
from or writes to CoreAudio in one invocation. -/
structure Platform : Type where
  deviceList : RegistryResult
  currentDefault : Nat
  streamConfig : Nat → StreamConfigQuery
  name : Nat → Option (List Nat)
  setOk : Nat → Bool

/-- View of the device-list query hiding which of the three failure
modes occurred; callers of getAudioDeviceList only test err != noErr. -/
def deviceListResult (p : Platform) : Option (List Nat) :=
  match p.deviceList with
  | RegistryResult.ok ds => some ds
  | _ => none

/-- Output capability of a device under a given platform oracle. -/
def supportsD (p : Platform) (d : Nat) : Bool :=
  deviceSupportsOutput (p.streamConfig d)

/-- Filter loop shared by both variants (main.c lines 170-177 without the
index tracking, part_000 lines 200-205): keep, in order, the devices that
support output. -/
def filterOutputs (s : Nat → Bool) : List Nat → List Nat
  | [] => []
  | d :: rest => if s d then d :: filterOutputs s rest else filterOutputs s rest

/-- Index tracking of the single-pass loop of main.c lines 170-177,
restricted to the already filtered list: count is the number of output
devices pushed so far, idx the tracked currentIndex (initially -1); each
element equal to the current default overwrites idx with its position. -/
def trackIdx (c : Nat) : List Nat → Nat → Int → Int
  | [], _, idx => idx
  | d :: rest, count, idx =>
      trackIdx c rest (count + 1) (if d = c then (count : Int) else idx)

/-- Single pass of main.c lines 170-177: build the output-device array
and track currentIndex in one loop over the raw device list. -/
def scanPassAux (s : Nat → Bool) (c : Nat) : List Nat → Nat → Int → List Nat × Int
  | [], _, idx => ([], idx)
  | d :: rest, count, idx =>
      if s d then
        let r := scanPassAux s c rest (count + 1) (if d = c then (count : Int) else idx)
        (d :: r.1, r.2)
      else scanPassAux s c rest count idx

/-- Entry point of the single pass: outputCount = 0, currentIndex = -1. -/
def scanPass (s : Nat → Bool) (c : Nat) (ds : List Nat) : List Nat × Int :=
  scanPassAux s c ds 0 (-1)

/-- Selector operation findNext as main.c lines 164-187 compute it on the
filtered list: nextIndex = (currentIndex + 1) % outputCount where
currentIndex is the tracked index (-1 when the current default is not an
output device). -/
def findNext (l : List Nat) (c : Nat) : Nat :=
  l.getD ((trackIdx c l 0 (-1) + 1).toNat % l.length) 0

/-- Iterate findNext k times on a fixed filtered list. -/
def iterNext (l : List Nat) (c : Nat) : Nat → Nat
  | 0 => c
  | k + 1 => findNext l (iterNext l c k)

/-- Next-device selection of the newer variant (main.c lines 164-187) as
a function of the capability predicate, the current default and the raw
device list. -/
def selectNew (s : Nat → Bool) (c : Nat) (ds : List Nat) : Nat :=
  let st := scanPass s c ds
  st.1.getD ((st.2 + 1).toNat % st.1.length) 0

/-- Search loop of the older variant (part_000 lines 215-221): first
index of the current default in the output list, -1 when absent, with
break at the first hit. -/
def findFirstIdx (c : Nat) : List Nat → Nat → Int
  | [], _ => -1
  | d :: rest, i => if d = c then (i : Int) else findFirstIdx c rest (i + 1)

/-- Next-device selection of the older variant (part_000 lines 196-225):
separate filter pass, then first-occurrence search, then the same modular
successor formula. -/
def selectOld (s : Nat → Bool) (c : Nat) (ds : List Nat) : Nat :=
  let out := filterOutputs s ds
  out.getD ((findFirstIdx c out 0 + 1).toNat % out.length) 0

/-- Name comparison of findDeviceByName (main.c line 241): strlen check
first, then memcmp over wantedLen bytes of both strings. -/
def namesEqual (n wanted : List Nat) : Bool :=
  n.length = wanted.length && n.take wanted.length = wanted.take wanted.length

/-- Match test for one device: resolve the name; a device with an
unresolvable name never matches. -/
def matchName (p : Platform) (wanted : List Nat) (d : Nat) : Bool :=
  match p.name d with
  | some n => namesEqual n wanted
  | none => false

/-- Loop of findDeviceByName (main.c lines 230-246): runs while
found == kAudioObjectUnknown, skips non-output devices and devices with
unresolvable names, and records the device on a byte-for-byte name
match. -/
def findLoop (p : Platform) (wanted : List Nat) : List Nat → Nat → Nat
  | [], found => found
  | d :: rest, found =>
      if found ≠ 0 then found
      else
        findLoop p wanted rest
          (if supportsD p d then
            match p.name d with
            | some n => if namesEqual n wanted then d else found
            | none => found
          else found)

/-- findDeviceByName (main.c lines 218-250): sentinel on a device-list
failure, otherwise the search loop starting from the sentinel. -/
def findDeviceByName (p : Platform) (wanted : List Nat) : Nat :=
  match deviceListResult p with
  | none => 0
  | some ds => findLoop p wanted ds 0

/-- Observable console and platform events of one invocation. -/
inductive Ev : Type
  | printErrDeviceList : Ev
  | printCannotSwitch : Ev
  | setCall : Nat → Ev
  | printSwitched : Ev
  | printSetFailed : Ev
  | printHeader : Ev
  | printDevice : Nat → Ev
  | printNotFound : Ev
  | printHintList : Ev
  | printSwitchedTo : Ev
  | printUsage : Ev
deriving DecidableEq, Repr

/-- listAudioDevices (main.c lines 119-153): on device-list failure print
the error; otherwise print the header and one line per output-capable
device whose name resolves. Never touches the default-output register. -/
def listAudioDevices (p : Platform) : List Ev :=
  match deviceListResult p with
  | none => [Ev.printErrDeviceList]
  | some ds =>
      Ev.printHeader ::
        (filterOutputs (supportsD p) ds).filterMap
          (fun d => (p.name d).map (fun _ => Ev.printDevice d))

/-- switchToNextDevice (main.c lines 155-201): device-list fetch, single
filter-and-track pass, the outputCount <= 1 early return, then the set
call and the success or failure message. -/
def switchToNextDevice (p : Platform) : List Ev :=
  match deviceListResult p with
  | none => [Ev.printErrDeviceList]
  | some ds =>
      let st := scanPass (supportsD p) p.currentDefault ds
      if st.1.length ≤ 1 then [Ev.printCannotSwitch]
      else
        let nextDevice := st.1.getD ((st.2 + 1).toNat % st.1.length) 0
        Ev.setCall nextDevice ::
          (if p.setOk nextDevice then [Ev.printSwitched] else [Ev.printSetFailed])

/-- Parsed CLI intent; main.c lines 266-295 map argv to one of these. -/
inductive Intent : Type
  | list : Intent
  | next : Intent
  | help : Intent
  | setByName : List Nat → Intent
  | malformed : Intent
deriving DecidableEq, Repr

/-- SetByName path of main (main.c lines 299-313): sentinel means not
found (exit 1 with the list hint); otherwise one write to the
default-output register, exit 1 on write failure. -/
def runSetByName (p : Platform) (wanted : List Nat) : List Ev × Nat :=
  let dev := findDeviceByName p wanted
  if dev = 0 then ([Ev.printNotFound, Ev.printHintList], 1)
  else if p.setOk dev then ([Ev.setCall dev, Ev.printSwitchedTo], 0)
  else ([Ev.setCall dev, Ev.printSetFailed], 1)

/-- main (main.c lines 266-314): dispatch on the parsed intent; the List,
Next and Help commands always return exit code 0, a malformed invocation
returns 1. -/
def runMain (p : Platform) : Intent → List Ev × Nat
  | Intent.list => (listAudioDevices p, 0)
  | Intent.next => (switchToNextDevice p, 0)
  | Intent.help => ([Ev.printUsage], 0)
  | Intent.setByName wanted => runSetByName p wanted
  | Intent.malformed => ([Ev.printUsage], 1)

example : deviceSupportsOutput (StreamConfigQuery.ok [2, 2]) = true := by decide
example : deviceSupportsOutput (StreamConfigQuery.ok [2, 0]) = false := by decide
example : deviceSupportsOutput (StreamConfigQuery.ok []) = false := by decide
example : findNext [4, 7, 9] 7 = 9 := by decide
example : findNext [4, 7, 9] 9 = 4 := by decide
example : findNext [4, 7, 9] 5 = 4 := by decide
example : findNext [5, 7, 5] 5 = 5 := by decide
example : selectOld (fun _ => true) 5 [5, 7, 5] = 7 := by decide
example : selectNew (fun _ => true) 5 [5, 7, 5] = 5 := by decide

/-! Supporting lemmas: the single pass equals filter plus index tracking,
and the tracked index is characterised on lists where the current default
occurs at most once. -/

theorem filterOutputs_eq_filter (s : Nat → Bool) (l : List Nat) :
    filterOutputs s l = l.filter s := by
  induction l with
  | nil => rfl
  | cons d rest ih =>
      by_cases h : s d <;> simp [filterOutputs, List.filter_cons, h, ih]

theorem hasOutputLoop_eq (l : List Nat) (h : Bool) :
    hasOutputLoop l h = (h && l.all (fun b => decide (b ≠ 0))) := by
  induction l generalizing h with
  | nil => simp [hasOutputLoop]
  | cons b rest ih =>
      by_cases hb : b = 0 <;> simp [hasOutputLoop, hb, ih]

theorem trackIdx_not_mem (c : Nat) (l : List Nat) (hc : c ∉ l) :
    ∀ count idx, trackIdx c l count idx = idx := by
  induction l with
  | nil => intro count idx; rfl
  | cons d rest ih =>
      intro count idx
      have hd : d ≠ c := fun h => hc (by simp [h])
      have hr : c ∉ rest := fun h => hc (List.mem_cons_of_mem _ h)
      simp [trackIdx, hd, ih hr]

theorem trackIdx_unique (c : Nat) (l : List Nat) (hcount : l.count c ≤ 1) :
    ∀ i (hi : i < l.length), l.get ⟨i, hi⟩ = c →
      ∀ count idx, trackIdx c l count idx = (count : Int) + i := by
  induction l with
  | nil => intro i hi; simp at hi
  | cons d rest ih =>
      intro i hi hget count idx
      by_cases hd : d = c
      · subst hd
        have hnr : d ∉ rest := by
          rw [List.count_cons_self] at hcount
          exact List.count_eq_zero.mp (by omega)
        have hi0 : i = 0 := by
          cases i with
          | zero => rfl
          | succ j =>
              exfalso
              apply hnr
              have hj : j < rest.length := by simpa using hi
              have hr : rest.get ⟨j, hj⟩ = d := hget
              exact hr ▸ List.get_mem rest j hj
        subst hi0
        simp [trackIdx, trackIdx_not_mem d rest hnr]
      · cases i with
        | zero =>
            exfalso; exact hd (by simpa using hget)
        | succ j =>
            have hcr : rest.count c ≤ 1 := by
              simp only [List.count_cons, beq_iff_eq, if_neg hd] at hcount
              omega
            have hj : j < rest.length := by simpa using hi
            have hgr : rest.get ⟨j, hj⟩ = c := hget
            have h2 := ih hcr j hj hgr (count + 1) idx
            simp only [trackIdx]
            rw [if_neg hd, h2]
            push_cast
            ring

theorem scanPassAux_eq (s : Nat → Bool) (c : Nat) (ds : List Nat) :
    ∀ count idx, scanPassAux s c ds count idx =
      (filterOutputs s ds, trackIdx c (filterOutputs s ds) count idx) := by
  induction ds with
  | nil => intro count idx; rfl
  | cons d rest ih =>
      intro count idx
      by_cases h : s d
      · simp [scanPassAux, filterOutputs, h, ih, trackIdx]
      · simp [scanPassAux, filterOutputs, h, ih]

theorem scanPass_eq (s : Nat → Bool) (c : Nat) (ds : List Nat) :
    scanPass s c ds = (filterOutputs s ds, trackIdx c (filterOutputs s ds) 0 (-1)) :=
  scanPassAux_eq s c ds 0 (-1)

theorem selectNew_eq_findNext (s : Nat → Bool) (c : Nat) (ds : List Nat) :
    selectNew s c ds = findNext (filterOutputs s ds) c := by
  simp only [selectNew, scanPass_eq, findNext]

theorem findFirstIdx_not_mem (c : Nat) (l : List Nat) (hc : c ∉ l) :
    ∀ i, findFirstIdx c l i = -1 := by
  induction l with
  | nil => intro i; rfl
  | cons d rest ih =>
      intro i
      have hd : d ≠ c := fun h => hc (by simp [h])
      have hr : c ∉ rest := fun h => hc (List.mem_cons_of_mem _ h)
      simp only [findFirstIdx]
      rw [if_neg hd, ih hr]

theorem findFirstIdx_unique (c : Nat) (l : List Nat) (hcount : l.count c ≤ 1) :
    ∀ i (hi : i < l.length), l.get ⟨i, hi⟩ = c →
      ∀ start, findFirstIdx c l start = (start : Int) + i := by
  induction l with
  | nil => intro i hi; simp at hi
  | cons d rest ih =>
      intro i hi hget start
      by_cases hd : d = c
      · have hi0 : i = 0 := by
          subst hd
          have hnr : d ∉ rest := by
            rw [List.count_cons_self] at hcount
            exact List.count_eq_zero.mp (by omega)
          cases i with
          | zero => rfl
          | succ j =>
              exfalso
              apply hnr
              have hj : j < rest.length := by simpa using hi
              have hr : rest.get ⟨j, hj⟩ = d := hget
              exact hr ▸ List.get_mem rest j hj
        subst hi0
        simp [findFirstIdx, hd]
      · cases i with
        | zero =>
            exfalso; exact hd (by simpa using hget)
        | succ j =>
            have hcr : rest.count c ≤ 1 := by
              simp only [List.count_cons, beq_iff_eq, if_neg hd] at hcount
              omega
            have hj : j < rest.length := by simpa using hi
            have hgr : rest.get ⟨j, hj⟩ = c := hget
            have h2 := ih hcr j hj hgr (start + 1)
            simp only [findFirstIdx]
            rw [if_neg hd, h2]
            push_cast
            ring

theorem findNext_not_mem (l : List Nat) (c : Nat) (hc : c ∉ l) :
    findNext l c = l.getD 0 0 := by
  simp [findNext, trackIdx_not_mem c l hc]

theorem findNext_unique (l : List Nat) (c : Nat) (hcount : l.count c ≤ 1)
    (i : Nat) (hi : i < l.length) (hget : l.get ⟨i, hi⟩ = c) :
    findNext l c = l.getD ((i + 1) % l.length) 0 := by
  have ht := trackIdx_unique c l hcount i hi hget 0 (-1)
  have htn : (trackIdx c l 0 (-1) + 1).toNat = i + 1 := by
    rw [ht]; omega
  simp [findNext, htn]

theorem findNext_get (l : List Nat) (hnd : l.Nodup)
    (i : Nat) (hi : i < l.length) :
    findNext l (l.get ⟨i, hi⟩) =
      l.get ⟨(i + 1) % l.length, Nat.mod_lt _ (by omega)⟩ := by
  have hcount := List.nodup_iff_count_le_one.mp hnd (l.get ⟨i, hi⟩)
  rw [findNext_unique l _ hcount i hi rfl]
  exact List.getD_eq_get l 0 (Nat.mod_lt _ (by omega))

theorem iterNext_get (l : List Nat) (hnd : l.Nodup) :
    ∀ (k i : Nat) (hi : i < l.length),
      iterNext l (l.get ⟨i, hi⟩) k =
        l.get ⟨(i + k) % l.length, Nat.mod_lt _ (by omega)⟩ := by
  intro k
  induction k with
  | zero =>
      intro i hi
      simp only [iterNext]
      congr 1
      exact Fin.ext (by simp [Nat.mod_eq_of_lt hi])
  | succ k ih =>
      intro i hi
      simp only [iterNext, ih i hi, findNext_get l hnd]
      congr 1
      apply Fin.ext
      show ((i + k) % l.length + 1) % l.length = (i + (k + 1)) % l.length
      rw [Nat.mod_add_mod]
      ring_nf

theorem range_map_iter_eq_rotate (l : List Nat) (hnd : l.Nodup)
    (i : Nat) (hi : i < l.length) :
    ((List.range l.length).map (fun k => iterNext l (l.get ⟨i, hi⟩) (k + 1))) =
      l.rotate (i + 1) := by
  apply List.ext_get
  · simp [List.length_rotate]
  · intro k h1 h2
    have hk : k < l.length := by simpa using h1
    have hg : ((List.range l.length).map
        (fun k => iterNext l (l.get ⟨i, hi⟩) (k + 1))).get ⟨k, h1⟩
          = iterNext l (l.get ⟨i, hi⟩) (k + 1) := by
      simp [List.get_map]
    rw [hg, iterNext_get l hnd (k + 1) i hi, List.get_rotate]
    apply congrArg l.get
    apply Fin.ext
    show (i + (k + 1)) % l.length = ((⟨k, h2⟩ : Fin (l.rotate (i + 1)).length) + (i + 1)) % l.length
    have hv : ((⟨k, h2⟩ : Fin (l.rotate (i + 1)).length) : Nat) = k := rfl
    rw [hv, show i + (k + 1) = k + (i + 1) from by omega]

/-- C1: on a filtered output list of length at least two whose device
identifiers are pairwise distinct, iterating the findNext selection of
switchToNextDevice from any member of the list returns to the starting
device after length-many steps, and the length-many intermediate results
visit every element of the list exactly once (cyclic round robin). -/
theorem findNext_cycle (l : List Nat) (start : Nat)
    (hlen : 2 ≤ l.length) (hnd : l.Nodup) (hstart : start ∈ l) :
    iterNext l start l.length = start ∧
    ((List.range l.length).map (fun k => iterNext l start (k + 1))).Perm l := by
  obtain ⟨⟨i, hi⟩, hget⟩ := List.mem_iff_get.mp hstart
  constructor
  · rw [← hget, iterNext_get l hnd l.length i hi]
    apply congrArg l.get
    apply Fin.ext
    show (i + l.length) % l.length = i
    rw [Nat.add_mod_right]
    exact Nat.mod_eq_of_lt hi
  · rw [← hget, range_map_iter_eq_rotate l hnd i hi]
    exact List.rotate_perm l (i + 1)

/-- Closed witness for the C1 theorem at the concrete list [4, 7]. -/
theorem findNext_cycle_witness :
    iterNext [4, 7] 4 2 = 4 ∧
    ((List.range 2).map (fun k => iterNext [4, 7] 4 (k + 1))).Perm [4, 7] :=
  findNext_cycle [4, 7] 4 (by decide) (by decide) (by decide)

/-- C2 (amended): for every filtered output list of length at least two,
findNext returns the element at index (i + 1) mod length where i is the
position of the occurrence of current that the single-pass tracker
records; with duplicated identifiers this is the last occurrence, so the
stated formula holds whenever current occurs at most once, and when
current is absent the tracked index stays -1 and the result is the first
element. -/
theorem findNext_spec (l : List Nat) (c : Nat) (hlen : 2 ≤ l.length) :
    (c ∉ l → findNext l c = l.getD 0 0) ∧
    (∀ i (hi : i < l.length), l.count c ≤ 1 → l.get ⟨i, hi⟩ = c →
      findNext l c = l.getD ((i + 1) % l.length) 0) := by
  refine ⟨fun hc => findNext_not_mem l c hc, ?_⟩
  intro i hi hcount hget
  exact findNext_unique l c hcount i hi hget

/-- Closed witness for the C2 theorem: an absent current yields the first
element, and a current at index 0 of [4, 7] yields the element at index
(0 + 1) mod 2. -/
theorem findNext_spec_witness :
    findNext [4, 7] 9 = [4, 7].getD 0 0 ∧
    findNext [4, 7] 4 = [4, 7].getD ((0 + 1) % [4, 7].length) 0 :=
  ⟨(findNext_spec [4, 7] 9 (by decide)).1 (by decide),
   (findNext_spec [4, 7] 4 (by decide)).2 0 (by decide) (by decide) rfl⟩

/-- C2 counterexample: on the filtered list [5, 7, 5] with current 5 the
code keeps the last tracked occurrence (index 2) and returns the element
at index 0, which is 5, while the element after the position of 5 in the
list (index 0, as List.findIdx locates it) is 7. -/
theorem findNext_spec_counterexample :
    findNext [5, 7, 5] 5 ≠
      [5, 7, 5].getD (([5, 7, 5].findIdx (fun x => x == 5) + 1) % [5, 7, 5].length) 0 := by
  decide

theorem findFirstIdx_eq_trackIdx (l : List Nat) (c : Nat) (hcount : l.count c ≤ 1) :
    findFirstIdx c l 0 = trackIdx c l 0 (-1) := by
  by_cases hc : c ∈ l
  · obtain ⟨⟨i, hi⟩, hget⟩ := List.mem_iff_get.mp hc
    rw [findFirstIdx_unique c l hcount i hi hget 0,
      trackIdx_unique c l hcount i hi hget 0 (-1)]
  · rw [findFirstIdx_not_mem c l hc 0, trackIdx_not_mem c l hc 0 (-1)]

/-- C9 (amended): the older two-pass variant and the newer single-pass
variant of switchToNextDevice select the same next device whenever the
current default occurs at most once in the filtered output list, in
particular whenever the device identifiers are pairwise distinct; with a
duplicated current default the first-occurrence search and the
last-occurrence tracker disagree. -/
theorem selectOld_eq_selectNew (s : Nat → Bool) (c : Nat) (ds : List Nat)
    (hcount : (filterOutputs s ds).count c ≤ 1) :
    selectOld s c ds = selectNew s c ds := by
  rw [selectNew_eq_findNext]
  simp only [selectOld, findNext, findFirstIdx_eq_trackIdx _ _ hcount]

/-- Closed witness for the C9 theorem on the distinct list [3, 4]. -/
theorem selectOld_eq_selectNew_witness :
    selectOld (fun d => d != 0) 3 [3, 4] = selectNew (fun d => d != 0) 3 [3, 4] :=
  selectOld_eq_selectNew (fun d => d != 0) 3 [3, 4] (by decide)

/-- C9 counterexample: on the device list [5, 7, 5] with every device
output-capable and current default 5, the older variant selects 7 (first
occurrence of 5 is index 0) while the newer variant selects 5 (last
occurrence is index 2, wrapping to index 0). -/
theorem selectOld_ne_selectNew_counterexample :
    selectOld (fun _ => true) 5 [5, 7, 5] ≠ selectNew (fun _ => true) 5 [5, 7, 5] := by
  decide

/-- C3: the filter pass returns a sub-sequence of the device list (order
preserved, List.Sublist), and an identifier is in the result exactly
when it is in the device list and supports output; in particular no
identifier outside the device list appears. -/
theorem filterOutputs_spec (s : Nat → Bool) (ds : List Nat) :
    (filterOutputs s ds).Sublist ds ∧
    (∀ x, x ∈ filterOutputs s ds ↔ x ∈ ds ∧ s x = true) := by
  rw [filterOutputs_eq_filter]
  exact ⟨List.filter_sublist ds, fun x => by simp [List.mem_filter]⟩

/-- C5: deviceSupportsOutput is true exactly when the stream
configuration query succeeds with at least one buffer and every buffer
has a non-zero channel count; each of the three query failure modes
(size probe, allocation, data fetch) yields false. -/
theorem deviceSupportsOutput_spec (q : StreamConfigQuery) :
    deviceSupportsOutput q = true ↔
      ∃ bufs, q = StreamConfigQuery.ok bufs ∧ bufs ≠ [] ∧ ∀ b ∈ bufs, b ≠ 0 := by
  cases q with
  | sizeProbeFail => simp [deviceSupportsOutput]
  | allocFail => simp [deviceSupportsOutput]
  | dataFetchFail => simp [deviceSupportsOutput]
  | ok bufs =>
      simp only [deviceSupportsOutput, hasOutputLoop_eq, Bool.and_eq_true,
        decide_eq_true_eq, List.all_eq_true, StreamConfigQuery.ok.injEq]
      constructor
      · rintro ⟨h1, h2⟩
        exact ⟨bufs, rfl, by simpa using List.length_pos.mp h1,
          fun b hb => by simpa using h2 b hb⟩
      · rintro ⟨bufs2, rfl, h1, h2⟩
        exact ⟨List.length_pos.mpr h1, fun b hb => by simpa using h2 b hb⟩

/-- C6: when the device list fetch succeeds and the filtered output list
has fewer than two elements, the Next command prints the cannot-switch
message, never writes the default-output register, and main exits with
code 0. -/
theorem next_too_few_devices (p : Platform) (ds : List Nat)
    (hds : deviceListResult p = some ds)
    (hlen : (filterOutputs (supportsD p) ds).length < 2) :
    runMain p Intent.next = ([Ev.printCannotSwitch], 0) ∧
    ∀ id, Ev.setCall id ∉ (runMain p Intent.next).1 := by
  have hle : (filterOutputs (supportsD p) ds).length ≤ 1 := by omega
  have hsw : switchToNextDevice p = [Ev.printCannotSwitch] := by
    simp only [switchToNextDevice, hds, scanPass_eq]
    simp [hle]
  refine ⟨by simp [runMain, hsw], fun id => by simp [runMain, hsw]⟩

/-- Concrete platform with a single output-capable device. -/
def pOneDevice : Platform :=
  Platform.mk (RegistryResult.ok [1]) 1
    (fun d => if d = 0 then StreamConfigQuery.sizeProbeFail else StreamConfigQuery.ok [2])
    (fun _ => none) (fun _ => true)

/-- Closed witness for the C6 theorem on a one-device platform. -/
theorem next_too_few_devices_witness :
    runMain pOneDevice Intent.next = ([Ev.printCannotSwitch], 0) ∧
    ∀ id, Ev.setCall id ∉ (runMain pOneDevice Intent.next).1 :=
  next_too_few_devices pOneDevice [1] rfl (by decide)

/-- C7 (amended): the Next command always exits with code 0; a failing
device-list query prints the diagnostic and exits 0, and a failing
default-output write prints the failure diagnostic after the write
attempt and still exits 0. -/
theorem next_failure_exit_zero (p : Platform) :
    (runMain p Intent.next).2 = 0 ∧
    (deviceListResult p = none → (runMain p Intent.next).1 = [Ev.printErrDeviceList]) ∧
    (∀ ds, deviceListResult p = some ds →
      2 ≤ (filterOutputs (supportsD p) ds).length →
      p.setOk (selectNew (supportsD p) p.currentDefault ds) = false →
      (runMain p Intent.next).1 =
        [Ev.setCall (selectNew (supportsD p) p.currentDefault ds), Ev.printSetFailed]) := by
  refine ⟨rfl, fun h => by simp [runMain, switchToNextDevice, h], ?_⟩
  intro ds hds hlen hset
  have h1 : ¬ ((scanPass (supportsD p) p.currentDefault ds).1.length ≤ 1) := by
    rw [scanPass_eq]
    simp only []
    omega
  simp only [runMain, switchToNextDevice, hds, if_neg h1]
  simp only [selectNew] at hset ⊢
  rw [hset]
  simp

/-- Concrete platform whose default-output write is rejected. -/
def pWriteFails : Platform :=
  Platform.mk (RegistryResult.ok [1, 2]) 1
    (fun d => if d = 0 then StreamConfigQuery.sizeProbeFail else StreamConfigQuery.ok [2])
    (fun _ => none) (fun _ => false)

/-- Closed witness for the C7 theorem: exit code 0 together with the
write-failure diagnostic on a concrete platform. -/
theorem next_failure_exit_zero_witness :
    (runMain pWriteFails Intent.next).2 = 0 ∧
    (runMain pWriteFails Intent.next).1 = [Ev.setCall 2, Ev.printSetFailed] := by
  refine ⟨(next_failure_exit_zero pWriteFails).1, ?_⟩
  have h2 := (next_failure_exit_zero pWriteFails).2.2 [1, 2] rfl (by decide) (by decide)
  rw [h2]
  decide

/-- Concrete platform whose device-list query fails at the fetch step. -/
def pListFails : Platform :=
  Platform.mk RegistryResult.fetchFail 0
    (fun _ => StreamConfigQuery.sizeProbeFail) (fun _ => none) (fun _ => true)

/-- C7 counterexample: on a platform whose device-list fetch fails, the
Next command prints the diagnostic but the process exits with code 0,
not a non-zero code as the claim states. -/
theorem next_failure_exit_zero_counterexample :
    (runMain pListFails Intent.next).1 = [Ev.printErrDeviceList] ∧
    (runMain pListFails Intent.next).2 = 0 := by
  decide

theorem findLoop_found_ne (p : Platform) (wanted : List Nat) (l : List Nat)
    (found : Nat) (h : found ≠ 0) : findLoop p wanted l found = found := by
  cases l with
  | nil => rfl
  | cons d rest => simp [findLoop, h]

theorem namesEqual_iff (n w : List Nat) : namesEqual n w = true ↔ n = w := by
  unfold namesEqual
  simp only [Bool.and_eq_true, decide_eq_true_eq]
  constructor
  · rintro ⟨hlen, htake⟩
    have h1 : n.take w.length = n := by rw [← hlen]; exact List.take_length n
    have h2 : w.take w.length = w := List.take_length w
    rw [h1, h2] at htake
    exact htake
  · rintro rfl
    exact ⟨rfl, rfl⟩

theorem findLoop_eq_find (p : Platform) (wanted : List Nat)
    (h0 : ∀ d, supportsD p d = true → d ≠ 0) :
    ∀ ds, findLoop p wanted ds 0 =
      ((filterOutputs (supportsD p) ds).find? (fun d => matchName p wanted d)).getD 0 := by
  intro ds
  induction ds with
  | nil => rfl
  | cons d rest ih =>
      by_cases hs : supportsD p d
      · have hfo : filterOutputs (supportsD p) (d :: rest) =
            d :: filterOutputs (supportsD p) rest := by
          simp [filterOutputs, hs]
        cases hn : p.name d with
        | none =>
            have hstep : findLoop p wanted (d :: rest) 0 = findLoop p wanted rest 0 := by
              simp [findLoop, hs, hn]
            have hm : matchName p wanted d = false := by simp [matchName, hn]
            rw [hstep, hfo, List.find?_cons_of_neg _ (by simp [hm]), ih]
        | some n =>
            by_cases hm : namesEqual n wanted
            · have hd0 : d ≠ 0 := h0 d hs
              have hstep : findLoop p wanted (d :: rest) 0 = findLoop p wanted rest d := by
                simp [findLoop, hs, hn, hm]
              have hmt : matchName p wanted d = true := by simp [matchName, hn, hm]
              rw [hstep, hfo, List.find?_cons_of_pos _ (by simp [hmt]),
                findLoop_found_ne p wanted rest d hd0]
              rfl
            · have hstep : findLoop p wanted (d :: rest) 0 = findLoop p wanted rest 0 := by
                simp [findLoop, hs, hn, hm]
              have hmf : matchName p wanted d = false := by
                simp only [matchName, hn]
                simpa using hm
              rw [hstep, hfo, List.find?_cons_of_neg _ (by simp [hmf]), ih]
      · have hstep : findLoop p wanted (d :: rest) 0 = findLoop p wanted rest 0 := by
          simp [findLoop, hs]
        have hfo : filterOutputs (supportsD p) (d :: rest) =
            filterOutputs (supportsD p) rest := by
          simp [filterOutputs, hs]
        rw [hstep, hfo, ih]

/-- C4: findDeviceByName returns the first identifier of the filtered
output list whose resolved name is byte-for-byte equal to the wanted
name (the strlen check followed by memcmp is exact list equality, so a
name differing in case or being a strict substring never matches);
devices whose name does not resolve are skipped rather than treated as
errors, and the unknown sentinel 0 is returned when no device matches.
The hypothesis on the sentinel records the platform fact that property
queries on object 0 fail, so 0 is never output-capable. -/
theorem findDeviceByName_spec (p : Platform) (wanted : List Nat) (ds : List Nat)
    (hds : deviceListResult p = some ds) (h0 : supportsD p 0 = false) :
    findDeviceByName p wanted =
      ((filterOutputs (supportsD p) ds).find? (fun d => matchName p wanted d)).getD 0 ∧
    (∀ d, matchName p wanted d = true ↔ p.name d = some wanted) := by
  have h0d : ∀ d, supportsD p d = true → d ≠ 0 := by
    intro d hd he
    rw [he, h0] at hd
    cases hd
  constructor
  · simp only [findDeviceByName, hds]
    exact findLoop_eq_find p wanted h0d ds
  · intro d
    cases hn : p.name d with
    | none => simp [matchName, hn]
    | some n => simp [matchName, hn, namesEqual_iff]

/-- Concrete platform with two named output devices. -/
def pTwoNamed : Platform :=
  Platform.mk (RegistryResult.ok [1, 2]) 1
    (fun d => if d = 0 then StreamConfigQuery.sizeProbeFail else StreamConfigQuery.ok [2])
    (fun d => if d = 1 then some [65] else some [66]) (fun _ => true)

/-- Closed witness for the C4 theorem: on the two-device platform the
search for the byte string [66] resolves through the first-match
characterisation to device 2. -/
theorem findDeviceByName_spec_witness :
    findDeviceByName pTwoNamed [66] =
      ((filterOutputs (supportsD pTwoNamed) [1, 2]).find?
        (fun d => matchName pTwoNamed [66] d)).getD 0 ∧
    findDeviceByName pTwoNamed [66] = 2 :=
  ⟨(findDeviceByName_spec pTwoNamed [66] [1, 2] rfl (by decide)).1, by decide⟩

/-- C10: when the device-list query fails in any of its modes,
findDeviceByName returns the unknown sentinel, so the SetByName command
prints the not-found message with the hint to list devices and exits
with code 1, never writing the default-output register; a registry
failure is therefore indistinguishable from an absent device name at
the public interface. -/
theorem setByName_registry_failure (p : Platform) (wanted : List Nat)
    (hds : deviceListResult p = none) :
    findDeviceByName p wanted = 0 ∧
    runMain p (Intent.setByName wanted) = ([Ev.printNotFound, Ev.printHintList], 1) := by
  have hf : findDeviceByName p wanted = 0 := by
    simp [findDeviceByName, hds]
  exact ⟨hf, by simp [runMain, runSetByName, hf]⟩

/-- Concrete platform whose device-list size probe fails. -/
def pProbeFails : Platform :=
  Platform.mk RegistryResult.sizeProbeFail 0
    (fun _ => StreamConfigQuery.sizeProbeFail) (fun _ => none) (fun _ => true)

/-- Closed witness for the C10 theorem. -/
theorem setByName_registry_failure_witness :
    findDeviceByName pProbeFails [65] = 0 ∧
    runMain pProbeFails (Intent.setByName [65]) =
      ([Ev.printNotFound, Ev.printHintList], 1) :=
  setByName_registry_failure pProbeFails [65] rfl

theorem selectNew_mem (s : Nat → Bool) (c : Nat) (ds : List Nat)
    (hlen : 2 ≤ (filterOutputs s ds).length) :
    selectNew s c ds ∈ filterOutputs s ds := by
  rw [selectNew_eq_findNext]
  unfold findNext
  have h0 : 0 < (filterOutputs s ds).length := by omega
  have hidx : (trackIdx c (filterOutputs s ds) 0 (-1) + 1).toNat %
      (filterOutputs s ds).length < (filterOutputs s ds).length := Nat.mod_lt _ h0
  rw [List.getD_eq_get _ 0 hidx]
  exact List.get_mem _ _ hidx

theorem switchToNextDevice_ok (p : Platform) (ds : List Nat)
    (hds : deviceListResult p = some ds)
    (hlen : 2 ≤ (filterOutputs (supportsD p) ds).length) :
    switchToNextDevice p =
      Ev.setCall (selectNew (supportsD p) p.currentDefault ds) ::
        (if p.setOk (selectNew (supportsD p) p.currentDefault ds)
          then [Ev.printSwitched] else [Ev.printSetFailed]) := by
  have h1 : ¬ ((scanPass (supportsD p) p.currentDefault ds).1.length ≤ 1) := by
    rw [scanPass_eq]
    simp only []
    omega
  simp only [switchToNextDevice, hds, if_neg h1, selectNew]

/-- C8: under the platform fact that the stream-configuration query on
the sentinel object 0 fails (so 0 is never output-capable), the sentinel
never appears in the filtered output list, and no command of the tool
ever calls the default-output write with the sentinel as argument. -/
theorem sentinel_never_target (p : Platform) (h0 : supportsD p 0 = false) :
    (∀ ds, deviceListResult p = some ds → (0 : Nat) ∉ filterOutputs (supportsD p) ds) ∧
    (∀ it, Ev.setCall 0 ∉ (runMain p it).1) := by
  have hmem : ∀ ds, (0 : Nat) ∉ filterOutputs (supportsD p) ds := by
    intro ds hm
    rw [filterOutputs_eq_filter] at hm
    have h2 := (List.mem_filter.mp hm).2
    rw [h0] at h2
    cases h2
  refine ⟨fun ds _ => hmem ds, ?_⟩
  intro it
  cases it with
  | help => simp [runMain]
  | malformed => simp [runMain]
  | list =>
      cases hdl : deviceListResult p with
      | none => simp [runMain, listAudioDevices, hdl]
      | some ds =>
          simp only [runMain, listAudioDevices, hdl]
          intro hm
          rcases List.mem_cons.mp hm with h | h
          · exact Ev.noConfusion h
          · obtain ⟨a, _, hfa⟩ := List.mem_filterMap.mp h
            cases hpn : p.name a <;> simp [hpn] at hfa
  | next =>
      cases hdl : deviceListResult p with
      | none => simp [runMain, switchToNextDevice, hdl]
      | some ds =>
          by_cases hle2 : 2 ≤ (filterOutputs (supportsD p) ds).length
          · have hrw : (runMain p Intent.next).1 = switchToNextDevice p := rfl
            rw [hrw, switchToNextDevice_ok p ds hdl hle2]
            have hne : selectNew (supportsD p) p.currentDefault ds ≠ 0 := by
              intro he
              exact hmem ds (he ▸ selectNew_mem (supportsD p) p.currentDefault ds hle2)
            intro hm
            rcases List.mem_cons.mp hm with h | h
            · injection h with h2
              exact hne h2.symm
            · by_cases hso : p.setOk (selectNew (supportsD p) p.currentDefault ds) = true
              · rw [if_pos hso] at h
                simp at h
              · rw [if_neg hso] at h
                simp at h
          · have hle1 : (scanPass (supportsD p) p.currentDefault ds).1.length ≤ 1 := by
              rw [scanPass_eq]
              simp only []
              omega
            simp [runMain, switchToNextDevice, hdl, hle1]
  | setByName nm =>
      simp only [runMain, runSetByName]
      by_cases hdev : findDeviceByName p nm = 0
      · simp [hdev]
      · rw [if_neg hdev]
        by_cases hso : p.setOk (findDeviceByName p nm) = true
        · rw [if_pos hso]
          intro hm
          rcases List.mem_cons.mp hm with h | h
          · injection h with h2
            exact hdev h2.symm
          · rcases List.mem_singleton.mp h with h2
            exact Ev.noConfusion h2
        · rw [if_neg hso]
          intro hm
          rcases List.mem_cons.mp hm with h | h
          · injection h with h2
            exact hdev h2.symm
          · rcases List.mem_singleton.mp h with h2
            exact Ev.noConfusion h2

/-- Concrete platform whose raw device list even contains the sentinel. -/
def pWithSentinel : Platform :=
  Platform.mk (RegistryResult.ok [0, 1, 2]) 1
    (fun d => if d = 0 then StreamConfigQuery.sizeProbeFail else StreamConfigQuery.ok [2])
    (fun _ => none) (fun _ => true)

/-- Closed witness for the C8 theorem: the sentinel is filtered out of
the raw list [0, 1, 2] and the Next command never targets it. -/
theorem sentinel_never_target_witness :
    (0 : Nat) ∉ filterOutputs (supportsD pWithSentinel) [0, 1, 2] ∧
    Ev.setCall 0 ∉ (runMain pWithSentinel Intent.next).1 :=
  ⟨(sentinel_never_target pWithSentinel (by decide)).1 [0, 1, 2] rfl,
   (sentinel_never_target pWithSentinel (by decide)).2 Intent.next⟩
